import Mathlib

/-!
Shallow embedding of landlab's `GravelRiverTransporter` component
(`landlab/components/gravel_river_transporter/gravel_river_transporter.py`)
and verification of its specified behaviour.

Float arithmetic of the source is embedded as real arithmetic; `x ** y`
on floats is embedded as `Real.rpow`.  Grid geometry (node status codes,
core-node list, cell areas, link lengths) is supplied by the host grid
and is modelled as data carried by a `Grid` structure.  The sparse linear
solve (`scipy.sparse.linalg.spsolve`) is an external collaborator; it is
modelled by a solution vector constrained by the `SolvesSystem` predicate.
-/

namespace GRT

noncomputable section

/-- landlab node-status code for core (interior) nodes. -/
def BC_NODE_IS_CORE : ℕ := 0

/-- landlab node-status code for fixed-value boundary nodes. -/
def BC_NODE_IS_FIXED_VALUE : ℕ := 1

/-- landlab node-status code for closed boundary nodes. -/
def BC_NODE_IS_CLOSED : ℕ := 4

/-- Module-level constant `_ONE_SIXTH = 1.0 / 6.0`. -/
def _ONE_SIXTH : ℝ := 1.0 / 6.0

/-- Instance constant `self._SEVEN_SIXTHS = 7.0 / 6.0`. -/
def SEVEN_SIXTHS : ℝ := 7.0 / 6.0

/-- The host grid, as consumed by the component: the array of core-node
ids (`grid.core_nodes`), the per-node boundary status
(`grid.status_at_node`), uniform node spacing (`grid.dx`), the cell id at
each node and the area of each cell, and the length of each link
(geometry used when a spec formula refers to edge length). -/
structure Grid where
  coreNodes : List ℕ
  statusAtNode : ℕ → ℕ
  dx : ℝ
  cellAtNode : ℕ → ℕ
  areaOfCell : ℕ → ℝ
  lengthOfLink : ℕ → ℝ

/-- Construction-time parameters of the component.  `porosity_factor`
is `1.0 / (1.0 - sediment_porosity)` as computed in `__init__`. -/
structure Params where
  trans_coef : ℝ
  intermittency_factor : ℝ
  abrasion_coef : ℝ
  porosity_factor : ℝ

/-- The per-node field state bound by the component in `__init__`
(`self._elev`, `self._discharge`, ...).  Arrays are modelled as
functions from node id. -/
structure Fields where
  elev : ℕ → ℝ
  discharge : ℕ → ℝ
  slope : ℕ → ℝ
  receiver_node : ℕ → ℕ
  receiver_link : ℕ → ℕ
  sediment_influx : ℕ → ℝ
  sediment_outflux : ℕ → ℝ
  dzdt : ℕ → ℝ
  abrasion : ℕ → ℝ

/-- `calc_transport_capacity`: writes
`outflux[:] = trans_coef * intermittency_factor * discharge * slope ** (7/6)`
at every node. -/
def calc_transport_capacity (p : Params) (f : Fields) : Fields :=
  { f with
    sediment_outflux := fun n =>
      p.trans_coef * p.intermittency_factor * f.discharge n *
        f.slope n ^ SEVEN_SIXTHS }

/-- `calc_abrasion_rate`: writes, at core nodes only,
`abrasion[cores] = abrasion_coef * 0.5 * (outflux[cores] + influx[cores]) / grid.dx`. -/
def calc_abrasion_rate (g : Grid) (p : Params) (f : Fields) : Fields :=
  { f with
    abrasion := fun n =>
      if n ∈ g.coreNodes then
        p.abrasion_coef * 0.5 *
          (f.sediment_outflux n + f.sediment_influx n) / g.dx
      else f.abrasion n }

/-- The influx scatter in `calc_sediment_rate_of_change`:
`influx[receiver_node[cores]] = outflux[cores]`, a numpy fancy-indexed
assignment.  For duplicate receiver indices the value stored last (in
core-node order) wins; entries that are not a receiver of any core node
are left at their previous value. -/
def scatter_influx (g : Grid) (f : Fields) : ℕ → ℝ :=
  g.coreNodes.foldl
    (fun infl i => Function.update infl (f.receiver_node i) (f.sediment_outflux i))
    f.sediment_influx

/-- `calc_sediment_rate_of_change`: transport capacity, abrasion (only
when `abrasion_coef > 0`), the influx scatter, then at core nodes
`dzdt[cores] = porosity_factor * ((influx[cores] - outflux[cores]) /
area_of_cell[cell_at_node[cores]] - abrasion[cores])`. -/
def calc_sediment_rate_of_change (g : Grid) (p : Params) (f : Fields) : Fields :=
  let f1 := calc_transport_capacity p f
  let f2 := if 0 < p.abrasion_coef then calc_abrasion_rate g p f1 else f1
  let f3 := { f2 with sediment_influx := scatter_influx g f2 }
  { f3 with
    dzdt := fun n =>
      if n ∈ g.coreNodes then
        p.porosity_factor *
          ((f3.sediment_influx n - f3.sediment_outflux n) /
              g.areaOfCell (g.cellAtNode n)
            - f3.abrasion n)
      else f3.dzdt n }

/-- `run_one_step_simple_explicit(dt)`:
`calc_sediment_rate_of_change()` then `elev += dzdt * dt`. -/
def run_one_step_simple_explicit (g : Grid) (p : Params) (dt : ℝ) (f : Fields) :
    Fields :=
  let f1 := calc_sediment_rate_of_change g p f
  { f1 with elev := fun n => f1.elev n + f1.dzdt n * dt }

/-- A single sparse-matrix entry write `mat[p, q] = v` (all other entries
unchanged). -/
def updMat (m : ℕ → ℕ → ℝ) (p q : ℕ) (v : ℝ) : ℕ → ℕ → ℝ :=
  fun a b => if a = p ∧ b = q then v else m a b

/-- The body of the loop in module-level `zero_out_matrix` for one core
node `i`: zero `mat[j, j]` and, when the receiver is core, also
`mat[j, k]`, `mat[k, k]`, `mat[k, j]`. -/
def zero_out_node (g : Grid) (rcvr mat_id : ℕ → ℕ) (mat : ℕ → ℕ → ℝ) (i : ℕ) :
    ℕ → ℕ → ℝ :=
  let j := mat_id i
  let m1 := updMat mat j j 0
  let r := rcvr i
  if g.statusAtNode r = BC_NODE_IS_CORE then
    let k := mat_id r
    updMat (updMat (updMat m1 j k 0) k k 0) k j 0
  else m1

/-- `zero_out_matrix(grid, mat, rcvr, mat_id)`. -/
def zero_out_matrix (g : Grid) (mat : ℕ → ℕ → ℝ) (rcvr mat_id : ℕ → ℕ) :
    ℕ → ℕ → ℝ :=
  g.coreNodes.foldl (zero_out_node g rcvr mat_id) mat

/-- The matrix / right-hand-side pair owned by the component in matrix
mode (`self._mat`, `self._rhs`). -/
@[ext]
structure MatState where
  mat : ℕ → ℕ → ℝ
  rhs : ℕ → ℝ

/-- `prefac = (trans_coef * intermittency_factor * dt) / grid.dx ** 2`. -/
def prefac (g : Grid) (p : Params) (dt : ℝ) : ℝ :=
  p.trans_coef * p.intermittency_factor * dt / g.dx ^ (2 : ℕ)

/-- `a = prefac * (1.0 / grid.dx + abrasion_coef / 2)`. -/
def aCoef (g : Grid) (p : Params) (dt : ℝ) : ℝ :=
  prefac g p dt * (1.0 / g.dx + p.abrasion_coef / 2)

/-- `b = prefac * (1.0 / grid.dx - abrasion_coef / 2)`. -/
def bCoef (g : Grid) (p : Params) (dt : ℝ) : ℝ :=
  prefac g p dt * (1.0 / g.dx - p.abrasion_coef / 2)

/-- `f = discharge * slope ** _ONE_SIXTH` (the linearized conductance). -/
def conduct (f : Fields) : ℕ → ℝ :=
  fun n => f.discharge n * f.slope n ^ _ONE_SIXTH

/-- The body of the fill loop in `_fill_matrix_and_rhs` for one core
node `i`: `rhs[j] = elev[i]`, `mat[j, j] += 1 + a * fc[i]`, then either
the three core-receiver coupling writes or the boundary-elevation
right-hand-side contribution. -/
def fill_node (g : Grid) (mat_id : ℕ → ℕ) (f : Fields) (a b : ℝ) (fc : ℕ → ℝ)
    (ms : MatState) (i : ℕ) : MatState :=
  let j := mat_id i
  let rhs1 := Function.update ms.rhs j (f.elev i)
  let mat1 := updMat ms.mat j j (ms.mat j j + (1 + a * fc i))
  let r := f.receiver_node i
  if g.statusAtNode r = BC_NODE_IS_CORE then
    let k := mat_id r
    let mat2 := updMat mat1 j k (mat1 j k - a * fc i)
    let mat3 := updMat mat2 k k (mat2 k k + b * fc i)
    let mat4 := updMat mat3 k j (mat3 k j - b * fc i)
    ⟨mat4, rhs1⟩
  else
    ⟨mat1, Function.update rhs1 j (rhs1 j + a * fc i * f.elev r)⟩

/-- `_fill_matrix_and_rhs(dt)`: compute `a`, `b`, `f`, zero out the
previously-written entries, then run the fill loop over the core nodes. -/
def fill_matrix_and_rhs (g : Grid) (p : Params) (mat_id : ℕ → ℕ) (dt : ℝ)
    (f : Fields) (ms : MatState) : MatState :=
  let a := aCoef g p dt
  let b := bCoef g p dt
  let fc := conduct f
  let mat0 := zero_out_matrix g ms.mat f.receiver_node mat_id
  g.coreNodes.foldl (fill_node g mat_id f a b fc) ⟨mat0, ms.rhs⟩

/-- `x` is a solution of the `ncore × ncore` linear system held in `ms`,
the defining property of the external `spsolve` collaborator. -/
def SolvesSystem (ncore : ℕ) (ms : MatState) (x : ℕ → ℝ) : Prop :=
  ∀ j < ncore, (∑ k ∈ Finset.range ncore, ms.mat j k * x k) = ms.rhs j

/-- `self._elev[self.grid.core_nodes] = spsolve(...)`: the solution
vector is written into the elevation array at core nodes; `mat_id`
(landlab's `get_core_node_at_node`) maps a core node to its row in the
system. -/
def apply_solution (g : Grid) (mat_id : ℕ → ℕ) (x : ℕ → ℝ) (f : Fields) :
    Fields :=
  { f with
    elev := fun n => if n ∈ g.coreNodes then x (mat_id n) else f.elev n }

/-- `run_one_step_matrix_inversion(dt)`: fill the matrix and right-hand
side, solve, and write core-node elevations.  The `spsolve` output is
modelled by the vector `x`; theorems constrain it with `SolvesSystem`. -/
def run_one_step_matrix_inversion (g : Grid) (p : Params) (mat_id : ℕ → ℕ)
    (dt : ℝ) (x : ℕ → ℝ) (f : Fields) (ms : MatState) : Fields × MatState :=
  let ms1 := fill_matrix_and_rhs g p mat_id dt f ms
  (apply_solution g mat_id x f, ms1)

/-- One `run_one_step` call, in the mode fixed at construction: the
explicit step, or the matrix step with `x` standing for the `spsolve`
output of that step. -/
inductive Step where
  | explicit (dt : ℝ)
  | matrix (dt : ℝ) (x : ℕ → ℝ)

/-- Apply one `Step` to the field / matrix state. -/
def run_step (g : Grid) (p : Params) (mat_id : ℕ → ℕ) :
    Fields × MatState → Step → Fields × MatState
  | (f, ms), Step.explicit dt => (run_one_step_simple_explicit g p dt f, ms)
  | (f, ms), Step.matrix dt x => run_one_step_matrix_inversion g p mat_id dt x f ms

/-- Apply a sequence of `run_one_step` calls. -/
def run_steps (g : Grid) (p : Params) (mat_id : ℕ → ℕ) (steps : List Step)
    (st : Fields × MatState) : Fields × MatState :=
  steps.foldl (run_step g p mat_id) st

/-- A run of `run_one_step` calls in which every matrix step's solution
vector actually solves the linear system assembled at that point (the
contract of the external `spsolve`). -/
inductive ValidRun (g : Grid) (p : Params) (mat_id : ℕ → ℕ) :
    Fields × MatState → List Step → Fields × MatState → Prop
  | nil (st : Fields × MatState) : ValidRun g p mat_id st [] st
  | explicit_step (st st' : Fields × MatState) (dt : ℝ) (steps : List Step) :
      ValidRun g p mat_id (run_step g p mat_id st (Step.explicit dt)) steps st' →
      ValidRun g p mat_id st (Step.explicit dt :: steps) st'
  | matrix_step (st st' : Fields × MatState) (dt : ℝ) (x : ℕ → ℝ)
      (steps : List Step) :
      SolvesSystem g.coreNodes.length
        (fill_matrix_and_rhs g p mat_id dt st.1 st.2) x →
      ValidRun g p mat_id (run_step g p mat_id st (Step.matrix dt x)) steps st' →
      ValidRun g p mat_id st (Step.matrix dt x :: steps) st'

/-- Names of the component's output fields, from the `_info` table
(`"intent": "out"` entries). -/
def output_field_names : List String :=
  ["bedload_sediment__rate_of_loss_to_abrasion",
   "bedload_sediment__volume_influx",
   "bedload_sediment__volume_outflux",
   "sediment__rate_of_change"]

/-- Modelled from the spec: `Component.initialize_output_fields` (landlab
framework machinery, not under src/) allocates each declared "out" field
on the host grid, zero-filled, when it is not already present ("arrays
are allocated once at component construction, bound to persistent
host-grid storage").  The grid's field table is modelled as a partial
map from field name to per-node array. -/
def initialize_output_fields (at_node : String → Option (ℕ → ℝ)) :
    String → Option (ℕ → ℝ) :=
  fun name =>
    if name ∈ output_field_names then
      match at_node name with
      | some arr => some arr
      | none => some (fun _ => 0)
    else at_node name

/-- The solver mode fixed at construction. -/
inductive Solver where
  | explicit
  | matrix

/-- The field-mutating skeleton of `__init__`: `initialize_output_fields`
runs first (line 140), then the solver string is dispatched (lines
150-160); an unrecognized string raises
`ValueError("Solver type not recognized")` *after* the output fields
have been created.  The result pairs the grid's field table as left by
construction with the outcome. -/
def grt_init (at_node : String → Option (ℕ → ℝ)) (solver : String) :
    (String → Option (ℕ → ℝ)) × Except String Solver :=
  let at_node1 := initialize_output_fields at_node
  if solver = "explicit" then (at_node1, Except.ok Solver.explicit)
  else if solver = "matrix" then (at_node1, Except.ok Solver.matrix)
  else (at_node1, Except.error "Solver type not recognized")

/-! ### Concrete instances used by counterexamples and witnesses -/

/-- C1 instance: two core nodes 1 and 2 share receiver 0. -/
def g1 : Grid :=
  ⟨[1, 2], fun n => if n = 1 ∨ n = 2 then 0 else 1, 1, fun n => n,
    fun _ => 1, fun _ => 1⟩

/-- C1 parameters: unit coefficients, abrasion off. -/
def p1 : Params := ⟨1, 1, 0, 1⟩

/-- C1 fields: discharge 1 and 2 at the two core nodes, unit slope,
both core nodes drain to node 0, and a stale influx value 5 at node 3. -/
def f1 : Fields :=
  ⟨fun _ => 0, fun n => (n : ℝ), fun _ => 1, fun _ => 0, fun _ => 0,
    fun n => if n = 3 then 5 else 0, fun _ => 0, fun _ => 0, fun _ => 0⟩

/-- C2 instance: one core node 1 draining to boundary node 0. -/
def g2 : Grid :=
  ⟨[1], fun n => if n = 1 then 0 else 1, 1, fun n => n, fun _ => 1,
    fun _ => 1⟩

/-- C2 parameters: abrasion coefficient 1, porosity factor 2. -/
def p2 : Params := ⟨1, 1, 1, 2⟩

/-- C2 fields: unit discharge and slope everywhere. -/
def f2 : Fields :=
  ⟨fun _ => 0, fun _ => 1, fun _ => 1, fun _ => 0, fun _ => 0,
    fun _ => 0, fun _ => 0, fun _ => 0, fun _ => 0⟩

/-- C4 instance: receiver-link length 2 differs from `dx = 1`. -/
def g4 : Grid :=
  ⟨[1], fun n => if n = 1 then 0 else 1, 1, fun n => n, fun _ => 1,
    fun _ => 2⟩

/-- C4 parameters: abrasion coefficient 1. -/
def p4 : Params := ⟨1, 1, 1, 1⟩

/-- C4 fields: outflux 2 at core node 1, influx 0. -/
def f4 : Fields :=
  ⟨fun _ => 0, fun _ => 0, fun _ => 0, fun _ => 0, fun _ => 7,
    fun _ => 0, fun n => if n = 1 then 2 else 0, fun _ => 0, fun _ => 0⟩

/-- C6 witness parameters. -/
def p6w : Params := ⟨1, 1, 0, 1⟩

/-- C6 witness fields: slope zero everywhere. -/
def f6w : Fields :=
  ⟨fun _ => 0, fun _ => 3, fun _ => 0, fun _ => 0, fun _ => 0,
    fun _ => 0, fun _ => 0, fun _ => 0, fun _ => 0⟩

/-- C9 counterexample parameters. -/
def p9 : Params := ⟨1, 1, 0, 1⟩

/-- C9 counterexample fields: slope zero, discharge 1. -/
def f9a : Fields :=
  ⟨fun _ => 0, fun _ => 1, fun _ => 0, fun _ => 0, fun _ => 0,
    fun _ => 0, fun _ => 0, fun _ => 0, fun _ => 0⟩

/-- C9 counterexample fields: slope zero, discharge 2. -/
def f9b : Fields := { f9a with discharge := fun _ => 2 }

/-- C9 witness fields: slope 1, discharge 1. -/
def f9w : Fields := { f9a with slope := fun _ => 1 }

/-- C9 witness fields: slope 1, discharge 2. -/
def f9w' : Fields := { f9w with discharge := fun _ => 2 }

/-! ### Characterization of the matrix assembly -/

/-- The matrix entries written (and pre-zeroed) on behalf of core node
`i`: the diagonal of its own row, plus the three coupling entries when
its receiver is core. -/
def touches (g : Grid) (rcvr mat_id : ℕ → ℕ) (i p q : ℕ) : Prop :=
  (p = mat_id i ∧ q = mat_id i) ∨
    (g.statusAtNode (rcvr i) = BC_NODE_IS_CORE ∧
      ((p = mat_id i ∧ q = mat_id (rcvr i)) ∨
       (p = mat_id (rcvr i) ∧ q = mat_id (rcvr i)) ∨
       (p = mat_id (rcvr i) ∧ q = mat_id i)))

instance touchesDecidable (g : Grid) (rcvr mat_id : ℕ → ℕ) (i p q : ℕ) :
    Decidable (touches g rcvr mat_id i p q) := by
  unfold touches
  infer_instance

/-- The additive contribution of core node `i` to matrix entry `(p, q)`
in one pass of the fill loop: `1 + a·f[i]` on its diagonal and, when its
receiver is core, `-a·f[i]`, `+b·f[i]`, `-b·f[i]` on the coupling
entries. -/
def contrib (g : Grid) (rcvr mat_id : ℕ → ℕ) (a b : ℝ) (fc : ℕ → ℝ)
    (i p q : ℕ) : ℝ :=
  (if p = mat_id i ∧ q = mat_id i then 1 + a * fc i else 0) +
    (if g.statusAtNode (rcvr i) = BC_NODE_IS_CORE then
      (if p = mat_id i ∧ q = mat_id (rcvr i) then -(a * fc i) else 0) +
      (if p = mat_id (rcvr i) ∧ q = mat_id (rcvr i) then b * fc i else 0) +
      (if p = mat_id (rcvr i) ∧ q = mat_id i then -(b * fc i) else 0)
    else 0)

/-- Final right-hand-side value of row `mat_id i` when `i` is the last
core node writing it: the node's elevation, plus the folded-in boundary
elevation when the receiver is not core. -/
def rhs_val (g : Grid) (f : Fields) (a : ℝ) (fc : ℕ → ℝ) (i : ℕ) : ℝ :=
  f.elev i +
    (if g.statusAtNode (f.receiver_node i) = BC_NODE_IS_CORE then 0
     else a * fc i * f.elev (f.receiver_node i))

/-- The effect of one fill-loop pass on the right-hand side alone. -/
def rhs_step (g : Grid) (mat_id : ℕ → ℕ) (f : Fields) (a : ℝ) (fc : ℕ → ℝ)
    (r : ℕ → ℝ) (i : ℕ) : ℕ → ℝ :=
  fun j => if j = mat_id i then rhs_val g f a fc i else r j

/-- C3 witness instance: one core node 1 draining to fixed boundary 0. -/
def g3w : Grid :=
  ⟨[1], fun n => if n = 1 then 0 else 1, 1, fun n => n, fun _ => 1,
    fun _ => 1⟩

/-- C3 witness parameters. -/
def p3w : Params := ⟨1, 1, 0, 1⟩

/-- C3 witness fields: elevations 5 (boundary) and 7 (core), unit
discharge and slope. -/
def f3w : Fields :=
  ⟨fun n => if n = 0 then 5 else 7, fun _ => 1, fun _ => 1, fun _ => 0,
    fun _ => 0, fun _ => 0, fun _ => 0, fun _ => 0, fun _ => 0⟩

/-- C3 witness core-node index map. -/
def mid3w : ℕ → ℕ := fun _ => 0

/-- C3 witness initial matrix state. -/
def ms3w : MatState := ⟨fun _ _ => 0, fun _ => 0⟩

/-- C5 witness instance grid: core node 1, fixed-value boundary 0. -/
def g5w : Grid :=
  ⟨[1], fun n => if n = 1 then 0 else 1, 1, fun n => n, fun _ => 1,
    fun _ => 1⟩

/-- C5 witness parameters. -/
def p5w : Params := ⟨1, 1, 0, 1⟩

/-- C5 witness fields. -/
def f5w : Fields :=
  ⟨fun n => (n : ℝ), fun _ => 1, fun _ => 1, fun _ => 0, fun _ => 0,
    fun _ => 0, fun _ => 0, fun _ => 0, fun _ => 0⟩

/-- C5 witness core-node index map. -/
def mid5w : ℕ → ℕ := fun _ => 0

/-- C5 witness matrix state. -/
def ms5w : MatState := ⟨fun _ _ => 0, fun _ => 0⟩

/-- C8 witness grid: core node 1, boundary node 0. -/
def g8w : Grid :=
  ⟨[1], fun n => if n = 1 then 0 else 1, 1, fun n => n, fun _ => 1,
    fun _ => 1⟩

/-- C8 witness parameters. -/
def p8w : Params := ⟨1, 1, 0, 1⟩

/-- C8 witness fields: slope zero everywhere, clean outputs. -/
def f8w : Fields :=
  ⟨fun n => (n : ℝ), fun _ => 1, fun _ => 0, fun _ => 0, fun _ => 0,
    fun _ => 0, fun _ => 0, fun _ => 0, fun _ => 0⟩

/-- C8 witness core-node index map. -/
def mid8w : ℕ → ℕ := fun _ => 0

/-- C8 witness matrix state. -/
def ms8w : MatState := ⟨fun _ _ => 0, fun _ => 0⟩

/-! ### Claim theorems -/

/-- C6: `calc_transport_capacity` computes
`outflux = trans_coef * intermittency_factor * discharge * slope^(7/6)`
at every node, writes only `SedimentOutflux` (every other field is
unchanged), is a pure function of discharge and slope, and is
well-defined at zero slope, where the outflux is 0. -/
theorem grt_c6_transport_capacity (p : Params) (f : Fields) (n : ℕ) :
    (calc_transport_capacity p f).sediment_outflux n =
      p.trans_coef * p.intermittency_factor * f.discharge n *
        f.slope n ^ SEVEN_SIXTHS ∧
    (f.slope n = 0 → (calc_transport_capacity p f).sediment_outflux n = 0) ∧
    ((calc_transport_capacity p f).elev = f.elev ∧
      (calc_transport_capacity p f).discharge = f.discharge ∧
      (calc_transport_capacity p f).slope = f.slope ∧
      (calc_transport_capacity p f).receiver_node = f.receiver_node ∧
      (calc_transport_capacity p f).receiver_link = f.receiver_link ∧
      (calc_transport_capacity p f).sediment_influx = f.sediment_influx ∧
      (calc_transport_capacity p f).dzdt = f.dzdt ∧
      (calc_transport_capacity p f).abrasion = f.abrasion) ∧
    (∀ f' : Fields, f'.discharge = f.discharge → f'.slope = f.slope →
      (calc_transport_capacity p f').sediment_outflux =
        (calc_transport_capacity p f).sediment_outflux) := by
  refine ⟨rfl, ?_, ⟨rfl, rfl, rfl, rfl, rfl, rfl, rfl, rfl⟩, ?_⟩
  · intro h
    simp only [calc_transport_capacity, h]
    rw [Real.zero_rpow (by norm_num [SEVEN_SIXTHS])]
    ring
  · intro f' h1 h2
    funext m
    simp only [calc_transport_capacity]
    rw [h1, h2]

/-- C6 witness: at slope 0 the computed outflux is 0 on a concrete
state. -/
theorem grt_c6_witness :
    (calc_transport_capacity p6w f6w).sediment_outflux 0 = 0 :=
  (grt_c6_transport_capacity p6w f6w 0).2.1 rfl

/-- C9 counterexample to the claim as stated: at slope 0, increasing the
discharge from 1 to 2 leaves the outflux unchanged (both are 0), so
outflux is not strictly increasing in discharge at every fixed slope. -/
theorem grt_c9_counterexample :
    f9a.discharge 0 < f9b.discharge 0 ∧ f9a.slope = f9b.slope ∧
    (calc_transport_capacity p9 f9a).sediment_outflux 0 =
      (calc_transport_capacity p9 f9b).sediment_outflux 0 := by
  refine ⟨by norm_num [f9a, f9b], rfl, ?_⟩
  simp only [calc_transport_capacity, f9a, f9b]
  rw [Real.zero_rpow (by norm_num [SEVEN_SIXTHS])]
  ring

/-- C9 amended: at fixed *positive* slope, and with positive transport
coefficient and intermittency factor, increasing discharge strictly
increases the outflux computed by `calc_transport_capacity`. -/
theorem grt_c9_amended (p : Params) (f f' : Fields) (n : ℕ)
    (hk : 0 < p.trans_coef) (hi : 0 < p.intermittency_factor)
    (hs : f'.slope n = f.slope n) (hspos : 0 < f.slope n)
    (hq : f.discharge n < f'.discharge n) :
    (calc_transport_capacity p f).sediment_outflux n <
      (calc_transport_capacity p f').sediment_outflux n := by
  simp only [calc_transport_capacity]
  rw [hs]
  exact mul_lt_mul_of_pos_right
    (mul_lt_mul_of_pos_left hq (mul_pos hk hi))
    (Real.rpow_pos_of_pos hspos _)

/-- C9 witness: the amended monotonicity at a concrete positive-slope
state. -/
theorem grt_c9_witness :
    (0 < p9.trans_coef ∧ 0 < p9.intermittency_factor ∧
      f9w'.slope 0 = f9w.slope 0 ∧ 0 < f9w.slope 0 ∧
      f9w.discharge 0 < f9w'.discharge 0) ∧
    (calc_transport_capacity p9 f9w).sediment_outflux 0 <
      (calc_transport_capacity p9 f9w').sediment_outflux 0 :=
  ⟨⟨by norm_num [p9], by norm_num [p9], rfl, by norm_num [f9w, f9a],
    by norm_num [f9w, f9w', f9a]⟩,
   grt_c9_amended p9 f9w f9w' 0 (by norm_num [p9]) (by norm_num [p9]) rfl
     (by norm_num [f9w, f9a]) (by norm_num [f9w, f9w', f9a])⟩

/-- C1: with core nodes 1 and 2 both draining to node 0 (outfluxes 1 and
2), `calc_sediment_rate_of_change` leaves `influx[0] = 2` — the numpy
fancy-indexed assignment keeps only the last contributor — while the
claimed sum of contributing outfluxes is 3; and the stale influx value at
node 3 survives the step, so influx is not zero-initialized. -/
theorem grt_c1_overwrite_eval :
    (calc_sediment_rate_of_change g1 p1 f1).sediment_influx 0 = 2 ∧
    (calc_sediment_rate_of_change g1 p1 f1).sediment_outflux 1 +
      (calc_sediment_rate_of_change g1 p1 f1).sediment_outflux 2 = 3 ∧
    ((2 : ℝ) ≠ 3) ∧
    (calc_sediment_rate_of_change g1 p1 f1).sediment_influx 3 = 5 := by
  refine ⟨?_, ?_, by norm_num, ?_⟩ <;>
    norm_num [calc_sediment_rate_of_change, calc_transport_capacity,
      scatter_influx, g1, p1, f1, Function.update, Real.one_rpow]

/-- C2 counterexample to the claim as stated: on a concrete state with
abrasion coefficient 1 and porosity factor 2, the code computes
`dzdt[1] = -3`, while the claimed formula — porosity factor applied to
the flux-divergence term only — gives `-5/2`. -/
theorem grt_c2_counterexample :
    (calc_sediment_rate_of_change g2 p2 f2).dzdt 1 = -3 ∧
    p2.porosity_factor *
        (((calc_sediment_rate_of_change g2 p2 f2).sediment_influx 1 -
            (calc_sediment_rate_of_change g2 p2 f2).sediment_outflux 1) /
          g2.areaOfCell (g2.cellAtNode 1)) -
      (calc_sediment_rate_of_change g2 p2 f2).abrasion 1 = -(5 / 2) ∧
    ((-3 : ℝ) ≠ -(5 / 2)) := by
  refine ⟨?_, ?_, by norm_num⟩ <;>
    norm_num [calc_sediment_rate_of_change, calc_transport_capacity,
      calc_abrasion_rate, scatter_influx, g2, p2, f2, Function.update,
      Real.one_rpow]

/-- C2 amended: after `calc_sediment_rate_of_change`, for every core
node, the rate of change equals the porosity factor `1/(1 - porosity)`
times the whole bracket — flux divergence per cell area *minus the
abrasion rate* — i.e. the porosity compensation multiplies the abrasion
term as well. -/
theorem grt_c2_amended (g : Grid) (p : Params) (f : Fields) (n : ℕ)
    (hn : n ∈ g.coreNodes) :
    (calc_sediment_rate_of_change g p f).dzdt n =
      p.porosity_factor *
        (((calc_sediment_rate_of_change g p f).sediment_influx n -
            (calc_sediment_rate_of_change g p f).sediment_outflux n) /
          g.areaOfCell (g.cellAtNode n) -
        (calc_sediment_rate_of_change g p f).abrasion n) := by
  simp [calc_sediment_rate_of_change, hn]

/-- C2 witness: the amended statement at node 1 of the concrete C2
state. -/
theorem grt_c2_witness :
    1 ∈ g2.coreNodes ∧
    (calc_sediment_rate_of_change g2 p2 f2).dzdt 1 =
      p2.porosity_factor *
        (((calc_sediment_rate_of_change g2 p2 f2).sediment_influx 1 -
            (calc_sediment_rate_of_change g2 p2 f2).sediment_outflux 1) /
          g2.areaOfCell (g2.cellAtNode 1) -
        (calc_sediment_rate_of_change g2 p2 f2).abrasion 1) :=
  ⟨by simp [g2], grt_c2_amended g2 p2 f2 1 (by simp [g2])⟩

/-- C4 counterexample to the claim as stated: with receiver-link length
2 but `dx = 1`, the code computes `abrasion[1] = 1` (it divides by the
uniform spacing `dx`), while the claimed per-receiver-link-length form
gives `1/2`. -/
theorem grt_c4_counterexample :
    (calc_abrasion_rate g4 p4 f4).abrasion 1 = 1 ∧
    p4.abrasion_coef * ((f4.sediment_outflux 1 + f4.sediment_influx 1) / 2) /
        g4.lengthOfLink (f4.receiver_link 1) = 1 / 2 ∧
    ((1 : ℝ) ≠ 1 / 2) := by
  refine ⟨?_, ?_, by norm_num⟩ <;>
    norm_num [calc_abrasion_rate, g4, p4, f4]

/-- C4 amended: `calc_abrasion_rate` sets, for core nodes only, the
abrasion rate to the abrasion coefficient times the mean of outflux and
influx, divided by the *uniform grid spacing* `dx` (not a per-node
receiver-link length); nodes outside the core list are unchanged. -/
theorem grt_c4_amended (g : Grid) (p : Params) (f : Fields) (n : ℕ)
    (hn : n ∈ g.coreNodes) :
    (calc_abrasion_rate g p f).abrasion n =
      p.abrasion_coef * ((f.sediment_outflux n + f.sediment_influx n) / 2) /
        g.dx ∧
    ∀ m, m ∉ g.coreNodes → (calc_abrasion_rate g p f).abrasion m = f.abrasion m := by
  constructor
  · simp only [calc_abrasion_rate, if_pos hn]
    ring
  · intro m hm
    simp [calc_abrasion_rate, hm]

/-- C4 witness: the amended formula at node 1 of the concrete C4
state. -/
theorem grt_c4_witness :
    1 ∈ g4.coreNodes ∧
    (calc_abrasion_rate g4 p4 f4).abrasion 1 =
      p4.abrasion_coef * ((f4.sediment_outflux 1 + f4.sediment_influx 1) / 2) /
        g4.dx :=
  ⟨by simp [g4], (grt_c4_amended g4 p4 f4 1 (by simp [g4])).1⟩

/-- C7 counterexample to the claim as stated: constructing with solver
string "bogus" on a grid with no fields is rejected with the
configuration error, yet the influx output field has been created on the
grid — the failure does *not* occur before field mutation. -/
theorem grt_c7_counterexample :
    (grt_init (fun _ => none) "bogus").2 =
      Except.error "Solver type not recognized" ∧
    (grt_init (fun _ => none) "bogus").1 "bedload_sediment__volume_influx" ≠
      none := by
  constructor <;>
    simp [grt_init, initialize_output_fields, output_field_names]

/-- C7 amended: any solver string other than "explicit" and "matrix" is
rejected deterministically with the configuration error, but only after
`initialize_output_fields` has run: the grid's field table at rejection
is exactly the one produced by output-field initialization (so output
fields may have been created before the failure). -/
theorem grt_c7_amended (at_node : String → Option (ℕ → ℝ)) (s : String)
    (h1 : s ≠ "explicit") (h2 : s ≠ "matrix") :
    (grt_init at_node s).2 = Except.error "Solver type not recognized" ∧
    (grt_init at_node s).1 = initialize_output_fields at_node := by
  constructor <;> simp [grt_init, h1, h2]

/-- C7 witness: rejection with the concrete solver string "bogus". -/
theorem grt_c7_witness :
    ("bogus" ≠ "explicit" ∧ "bogus" ≠ "matrix") ∧
    (grt_init (fun _ => none) "bogus").2 =
      Except.error "Solver type not recognized" ∧
    (grt_init (fun _ => none) "bogus").1 =
      initialize_output_fields (fun _ => none) :=
  ⟨⟨by decide, by decide⟩,
    grt_c7_amended (fun _ => none) "bogus" (by decide) (by decide)⟩

/-- Reading an `updMat` that added `d` to entry `(x, y)`. -/
lemma updMat_add (m : ℕ → ℕ → ℝ) (x y : ℕ) (d : ℝ) (p q : ℕ) :
    updMat m x y (m x y + d) p q = m p q + (if p = x ∧ q = y then d else 0) := by
  unfold updMat
  split_ifs with h
  · obtain ⟨rfl, rfl⟩ := h
    rfl
  · ring

/-- Reading an `updMat` that subtracted `d` from entry `(x, y)`. -/
lemma updMat_sub (m : ℕ → ℕ → ℝ) (x y : ℕ) (d : ℝ) (p q : ℕ) :
    updMat m x y (m x y - d) p q = m p q - (if p = x ∧ q = y then d else 0) := by
  unfold updMat
  split_ifs with h
  · obtain ⟨rfl, rfl⟩ := h
    rfl
  · ring

/-- One fill-loop pass adds exactly `contrib` to every matrix entry. -/
lemma fill_node_mat (g : Grid) (mat_id : ℕ → ℕ) (f : Fields) (a b : ℝ)
    (fc : ℕ → ℝ) (ms : MatState) (i p q : ℕ) :
    (fill_node g mat_id f a b fc ms i).mat p q =
      ms.mat p q + contrib g f.receiver_node mat_id a b fc i p q := by
  by_cases hs : g.statusAtNode (f.receiver_node i) = BC_NODE_IS_CORE
  · simp only [fill_node, contrib, hs, if_true, ite_true, eq_self_iff_true]
    rw [updMat_sub, updMat_add, updMat_sub, updMat_add]
    split_ifs <;> ring
  · simp only [fill_node, contrib, hs, if_false, ite_false]
    rw [updMat_add]
    split_ifs <;> ring

/-- One fill-loop pass acts on the right-hand side as `rhs_step`. -/
lemma fill_node_rhs (g : Grid) (mat_id : ℕ → ℕ) (f : Fields) (a b : ℝ)
    (fc : ℕ → ℝ) (ms : MatState) (i : ℕ) :
    (fill_node g mat_id f a b fc ms i).rhs =
      rhs_step g mat_id f a fc ms.rhs i := by
  funext j
  by_cases hs : g.statusAtNode (f.receiver_node i) = BC_NODE_IS_CORE <;>
    simp only [fill_node, rhs_step, rhs_val, Function.update, hs, if_true,
      if_false, ite_true, ite_false, eq_self_iff_true, eq_rec_constant,
      dite_eq_ite] <;>
    split_ifs <;> first | rfl | ring

/-- The right-hand-side component of the fill fold is the fold of
`rhs_step` alone. -/
lemma fill_fold_rhs (g : Grid) (mat_id : ℕ → ℕ) (f : Fields) (a b : ℝ)
    (fc : ℕ → ℝ) (l : List ℕ) (ms : MatState) :
    (l.foldl (fill_node g mat_id f a b fc) ms).rhs =
      l.foldl (rhs_step g mat_id f a fc) ms.rhs := by
  induction l generalizing ms with
  | nil => rfl
  | cons i l ih =>
      simp only [List.foldl_cons]
      rw [ih, fill_node_rhs]

/-- Matrix additivity of the fill fold: the result is the input matrix
plus the sum of the per-node contributions. -/
lemma fill_fold_mat (g : Grid) (mat_id : ℕ → ℕ) (f : Fields) (a b : ℝ)
    (fc : ℕ → ℝ) (l : List ℕ) (ms : MatState) (p q : ℕ) :
    (l.foldl (fill_node g mat_id f a b fc) ms).mat p q =
      ms.mat p q +
        (l.map (fun i => contrib g f.receiver_node mat_id a b fc i p q)).sum := by
  induction l generalizing ms with
  | nil => simp
  | cons i l ih =>
      simp only [List.foldl_cons, List.map_cons, List.sum_cons]
      rw [ih, fill_node_mat]
      ring

/-- `zero_out_node` zeroes exactly the entries `touches` describes. -/
lemma zero_out_node_apply (g : Grid) (rcvr mat_id : ℕ → ℕ)
    (mat : ℕ → ℕ → ℝ) (i p q : ℕ) :
    zero_out_node g rcvr mat_id mat i p q =
      if touches g rcvr mat_id i p q then 0 else mat p q := by
  by_cases hs : g.statusAtNode (rcvr i) = BC_NODE_IS_CORE <;>
    simp only [zero_out_node, touches, updMat, hs, if_true, if_false,
      ite_true, ite_false, true_and, false_and, or_false] <;>
    split_ifs <;> first | rfl | omega

/-- The zeroing fold zeroes exactly the union of the touched entries. -/
lemma zero_out_fold (g : Grid) (rcvr mat_id : ℕ → ℕ) (l : List ℕ)
    (mat : ℕ → ℕ → ℝ) (p q : ℕ) :
    (l.foldl (zero_out_node g rcvr mat_id) mat) p q =
      if ∃ i ∈ l, touches g rcvr mat_id i p q then 0 else mat p q := by
  induction l generalizing mat with
  | nil => simp
  | cons i l ih =>
      simp only [List.foldl_cons]
      rw [ih, zero_out_node_apply]
      by_cases h1 : ∃ i' ∈ l, touches g rcvr mat_id i' p q
      · simp [h1, List.exists_mem_cons_iff]
      · by_cases h2 : touches g rcvr mat_id i p q <;>
          simp [h1, h2, List.exists_mem_cons_iff]

/-- `zero_out_matrix` zeroes exactly the entries the fill loop writes. -/
lemma zero_out_matrix_apply (g : Grid) (mat : ℕ → ℕ → ℝ)
    (rcvr mat_id : ℕ → ℕ) (p q : ℕ) :
    zero_out_matrix g mat rcvr mat_id p q =
      if ∃ i ∈ g.coreNodes, touches g rcvr mat_id i p q then 0 else mat p q :=
  zero_out_fold g rcvr mat_id g.coreNodes mat p q

/-- A node contributes nothing outside its touched entries. -/
lemma contrib_eq_zero (g : Grid) (rcvr mat_id : ℕ → ℕ) (a b : ℝ)
    (fc : ℕ → ℝ) (i p q : ℕ) (h : ¬touches g rcvr mat_id i p q) :
    contrib g rcvr mat_id a b fc i p q = 0 := by
  unfold touches at h
  unfold contrib
  rw [if_neg fun hc => h (Or.inl hc)]
  by_cases hs : g.statusAtNode (rcvr i) = BC_NODE_IS_CORE
  · rw [if_pos hs,
      if_neg fun hc => h (Or.inr ⟨hs, Or.inl hc⟩),
      if_neg fun hc => h (Or.inr ⟨hs, Or.inr (Or.inl hc)⟩),
      if_neg fun hc => h (Or.inr ⟨hs, Or.inr (Or.inr hc)⟩)]
    norm_num
  · rw [if_neg hs]
    norm_num

/-- Closed form of the matrix assembled by `_fill_matrix_and_rhs`: a
touched entry holds the sum of the per-node contributions (previous
content zeroed first); every other entry is untouched. -/
lemma fill_matrix_mat_char (g : Grid) (p : Params) (mat_id : ℕ → ℕ)
    (dt : ℝ) (f : Fields) (ms : MatState) (p' q' : ℕ) :
    (fill_matrix_and_rhs g p mat_id dt f ms).mat p' q' =
      if ∃ i ∈ g.coreNodes, touches g f.receiver_node mat_id i p' q' then
        (g.coreNodes.map (fun i =>
          contrib g f.receiver_node mat_id (aCoef g p dt) (bCoef g p dt)
            (conduct f) i p' q')).sum
      else ms.mat p' q' := by
  unfold fill_matrix_and_rhs
  rw [fill_fold_mat]
  show zero_out_matrix g ms.mat f.receiver_node mat_id p' q' + _ = _
  rw [zero_out_matrix_apply]
  by_cases h : ∃ i ∈ g.coreNodes, touches g f.receiver_node mat_id i p' q'
  · rw [if_pos h, if_pos h, zero_add]
  · rw [if_neg h, if_neg h]
    push_neg at h
    rw [List.sum_eq_zero, add_zero]
    intro x hx
    simp only [List.mem_map] at hx
    obtain ⟨i, hi, rfl⟩ := hx
    exact contrib_eq_zero _ _ _ _ _ _ _ _ _ (h i hi)

/-- The fill fold leaves right-hand-side rows untouched when no core
node maps to them. -/
lemma rhs_fold_untouched (g : Grid) (mat_id : ℕ → ℕ) (f : Fields) (a : ℝ)
    (fc : ℕ → ℝ) (l : List ℕ) (r : ℕ → ℝ) (j : ℕ)
    (h : ∀ i ∈ l, mat_id i ≠ j) :
    l.foldl (rhs_step g mat_id f a fc) r j = r j := by
  induction l generalizing r with
  | nil => rfl
  | cons i l ih =>
      simp only [List.foldl_cons]
      rw [ih _ fun i' hi' => h i' (List.mem_cons_of_mem _ hi')]
      exact if_neg fun hj => h i (List.mem_cons_self i l) hj.symm

/-- The fill fold writes `rhs_val i` into row `mat_id i` when `i` is the
unique core node mapped to that row. -/
lemma rhs_fold_touched (g : Grid) (mat_id : ℕ → ℕ) (f : Fields) (a : ℝ)
    (fc : ℕ → ℝ) (l : List ℕ) (r : ℕ → ℝ) (i : ℕ) (hi : i ∈ l)
    (huniq : ∀ i' ∈ l, mat_id i' = mat_id i → i' = i) :
    l.foldl (rhs_step g mat_id f a fc) r (mat_id i) = rhs_val g f a fc i := by
  induction l generalizing r with
  | nil => cases hi
  | cons hd l ih =>
      simp only [List.foldl_cons]
      by_cases hmem : i ∈ l
      · exact ih _ hmem fun i' h1 h2 => huniq i' (List.mem_cons_of_mem _ h1) h2
      · have hhd : hd = i := by
          rcases List.mem_cons.mp hi with h | h
          · exact h.symm
          · exact absurd h hmem
        subst hhd
        rw [rhs_fold_untouched g mat_id f a fc l _ _
            fun i' hi' heq =>
              hmem (huniq i' (List.mem_cons_of_mem _ hi') heq ▸ hi')]
        simp [rhs_step]

/-- A touched right-hand-side row does not depend on its previous
content. -/
lemma rhs_fold_indep (g : Grid) (mat_id : ℕ → ℕ) (f : Fields) (a : ℝ)
    (fc : ℕ → ℝ) (l : List ℕ) (r r' : ℕ → ℝ) (j : ℕ)
    (h : ∃ i ∈ l, mat_id i = j) :
    l.foldl (rhs_step g mat_id f a fc) r j =
      l.foldl (rhs_step g mat_id f a fc) r' j := by
  induction l generalizing r r' with
  | nil => simp at h
  | cons hd l ih =>
      simp only [List.foldl_cons]
      by_cases h1 : ∃ i ∈ l, mat_id i = j
      · exact ih _ _ h1
      · have hhd : mat_id hd = j := by
          rcases h with ⟨i, hi, hj⟩
          rcases List.mem_cons.mp hi with rfl | hmem
          · exact hj
          · exact absurd ⟨i, hmem, hj⟩ h1
        push_neg at h1
        rw [rhs_fold_untouched g mat_id f a fc l _ _ h1,
          rhs_fold_untouched g mat_id f a fc l _ _ h1]
        simp [rhs_step, hhd]

/-- The right-hand side of `_fill_matrix_and_rhs` as a `rhs_step` fold. -/
lemma fill_matrix_rhs_eq_fold (g : Grid) (p : Params) (mat_id : ℕ → ℕ)
    (dt : ℝ) (f : Fields) (ms : MatState) :
    (fill_matrix_and_rhs g p mat_id dt f ms).rhs =
      g.coreNodes.foldl (rhs_step g mat_id f (aCoef g p dt) (conduct f))
        ms.rhs := by
  unfold fill_matrix_and_rhs
  rw [fill_fold_rhs]

/-- Row `mat_id i` of the assembled right-hand side, for `i` the unique
core node mapped to it. -/
lemma fill_matrix_rhs_touched (g : Grid) (p : Params) (mat_id : ℕ → ℕ)
    (dt : ℝ) (f : Fields) (ms : MatState) (i : ℕ) (hi : i ∈ g.coreNodes)
    (huniq : ∀ i' ∈ g.coreNodes, mat_id i' = mat_id i → i' = i) :
    (fill_matrix_and_rhs g p mat_id dt f ms).rhs (mat_id i) =
      rhs_val g f (aCoef g p dt) (conduct f) i := by
  rw [fill_matrix_rhs_eq_fold]
  exact rhs_fold_touched _ _ _ _ _ _ _ _ hi huniq

/-- Rows of the right-hand side with no core node mapped to them keep
their previous content. -/
lemma fill_matrix_rhs_untouched (g : Grid) (p : Params) (mat_id : ℕ → ℕ)
    (dt : ℝ) (f : Fields) (ms : MatState) (j : ℕ)
    (h : ∀ i ∈ g.coreNodes, mat_id i ≠ j) :
    (fill_matrix_and_rhs g p mat_id dt f ms).rhs j = ms.rhs j := by
  rw [fill_matrix_rhs_eq_fold]
  exact rhs_fold_untouched _ _ _ _ _ _ _ _ h

/-- C3: `_fill_matrix_and_rhs` implements exactly the specified
assembly.  The coefficients are
`a = (trans_coef · intermittency · dt / dx²) · (1/dx + abrasion/2)`,
`b` the same with `(1/dx − abrasion/2)`, and `f[i] = discharge[i] ·
slope[i]^(1/6)`; every matrix entry written on behalf of some core node
is first zeroed and then holds the sum of the per-node accumulations
`contrib` (diagonal `1 + a·f[i]`; for a core receiver `−a·f[i]`,
`+b·f[i]`, `−b·f[i]` on the coupling entries), other entries are
untouched; the right-hand side of row `i` is `elevation[i]`, plus
`a·f[i]·elevation[r]` when the receiver `r` is not core, and rows not
owned by a core node are untouched. -/
theorem grt_c3_fill_matrix (g : Grid) (p : Params) (mat_id : ℕ → ℕ)
    (dt : ℝ) (f : Fields) (ms : MatState)
    (hinj : ∀ i ∈ g.coreNodes, ∀ i' ∈ g.coreNodes,
      mat_id i = mat_id i' → i = i') :
    (aCoef g p dt =
        p.trans_coef * p.intermittency_factor * dt / g.dx ^ (2 : ℕ) *
          (1 / g.dx + p.abrasion_coef / 2) ∧
      bCoef g p dt =
        p.trans_coef * p.intermittency_factor * dt / g.dx ^ (2 : ℕ) *
          (1 / g.dx - p.abrasion_coef / 2) ∧
      ∀ n, conduct f n = f.discharge n * f.slope n ^ ((1 : ℝ) / 6)) ∧
    (∀ p' q', (fill_matrix_and_rhs g p mat_id dt f ms).mat p' q' =
      if ∃ i ∈ g.coreNodes, touches g f.receiver_node mat_id i p' q' then
        (g.coreNodes.map (fun i =>
          contrib g f.receiver_node mat_id (aCoef g p dt) (bCoef g p dt)
            (conduct f) i p' q')).sum
      else ms.mat p' q') ∧
    (∀ i ∈ g.coreNodes,
      (fill_matrix_and_rhs g p mat_id dt f ms).rhs (mat_id i) =
        f.elev i +
          (if g.statusAtNode (f.receiver_node i) = BC_NODE_IS_CORE then 0
           else aCoef g p dt * conduct f i * f.elev (f.receiver_node i))) ∧
    (∀ j, (∀ i ∈ g.coreNodes, mat_id i ≠ j) →
      (fill_matrix_and_rhs g p mat_id dt f ms).rhs j = ms.rhs j) := by
  refine ⟨⟨?_, ?_, fun n => ?_⟩, fun p' q' => ?_, fun i hi => ?_, fun j hj => ?_⟩
  · unfold aCoef prefac
    norm_num
  · unfold bCoef prefac
    norm_num
  · unfold conduct _ONE_SIXTH
    norm_num
  · exact fill_matrix_mat_char g p mat_id dt f ms p' q'
  · exact fill_matrix_rhs_touched g p mat_id dt f ms i hi
      fun i' hi' heq => hinj i' hi' i hi heq
  · exact fill_matrix_rhs_untouched g p mat_id dt f ms j hj

/-- C3 witness: on the concrete one-core-node instance, the assembled
right-hand side folds the boundary elevation in: row 0 holds
`7 + a·f·5 = 12`. -/
theorem grt_c3_witness :
    (∀ i ∈ g3w.coreNodes, ∀ i' ∈ g3w.coreNodes,
      mid3w i = mid3w i' → i = i') ∧
    (fill_matrix_and_rhs g3w p3w mid3w 1 f3w ms3w).rhs 0 = 12 := by
  have hinj : ∀ i ∈ g3w.coreNodes, ∀ i' ∈ g3w.coreNodes,
      mid3w i = mid3w i' → i = i' := by
    intro i hi i' hi' _
    simp [g3w] at hi hi'
    omega
  refine ⟨hinj, ?_⟩
  have h := (grt_c3_fill_matrix g3w p3w mid3w 1 f3w ms3w hinj).2.2.1 1
    (by simp [g3w])
  rw [show mid3w 1 = 0 from rfl] at h
  rw [h]
  norm_num [g3w, p3w, f3w, aCoef, prefac, conduct, BC_NODE_IS_CORE,
    _ONE_SIXTH, Real.one_rpow]

/-- C10: `_fill_matrix_and_rhs` assembly is idempotent — `zero_out_matrix`
clears exactly the entries the fill loop writes, so a second call with
the same `dt` and unchanged fields reproduces the same matrix and
right-hand side. -/
theorem grt_c10_fill_idempotent (g : Grid) (p : Params) (mat_id : ℕ → ℕ)
    (dt : ℝ) (f : Fields) (ms : MatState) :
    fill_matrix_and_rhs g p mat_id dt f
        (fill_matrix_and_rhs g p mat_id dt f ms) =
      fill_matrix_and_rhs g p mat_id dt f ms := by
  apply MatState.ext
  · funext p' q'
    by_cases h : ∃ i ∈ g.coreNodes, touches g f.receiver_node mat_id i p' q'
    · rw [fill_matrix_mat_char, if_pos h, fill_matrix_mat_char, if_pos h]
    · rw [fill_matrix_mat_char, if_neg h, fill_matrix_mat_char, if_neg h]
  · funext j
    by_cases h : ∃ i ∈ g.coreNodes, mat_id i = j
    · rw [fill_matrix_rhs_eq_fold, fill_matrix_rhs_eq_fold]
      exact rhs_fold_indep _ _ _ _ _ _ _ _ _ h
    · push_neg at h
      rw [fill_matrix_rhs_untouched g p mat_id dt f
          (fill_matrix_and_rhs g p mat_id dt f ms) j h]

/-! ### Frame lemmas for the per-step updates -/

/-- `calc_sediment_rate_of_change` never writes elevation, slope,
discharge, or the routing arrays. -/
lemma csroc_frame (g : Grid) (p : Params) (f : Fields) :
    (calc_sediment_rate_of_change g p f).elev = f.elev ∧
    (calc_sediment_rate_of_change g p f).slope = f.slope ∧
    (calc_sediment_rate_of_change g p f).discharge = f.discharge ∧
    (calc_sediment_rate_of_change g p f).receiver_node = f.receiver_node ∧
    (calc_sediment_rate_of_change g p f).receiver_link = f.receiver_link := by
  unfold calc_sediment_rate_of_change
  by_cases hc : 0 < p.abrasion_coef <;>
    simp [hc, calc_abrasion_rate, calc_transport_capacity]

/-- `calc_sediment_rate_of_change` leaves `dzdt` unchanged outside the
core nodes. -/
lemma csroc_dzdt_noncore (g : Grid) (p : Params) (f : Fields) (n : ℕ)
    (hn : n ∉ g.coreNodes) :
    (calc_sediment_rate_of_change g p f).dzdt n = f.dzdt n := by
  unfold calc_sediment_rate_of_change
  by_cases hc : 0 < p.abrasion_coef <;>
    simp [hc, hn, calc_abrasion_rate, calc_transport_capacity]

/-- The explicit step at a non-core node: elevation moves by the node's
(unchanged) `dzdt` times `dt`, and `dzdt` itself is unchanged. -/
lemma explicit_noncore (g : Grid) (p : Params) (dt : ℝ) (f : Fields) (n : ℕ)
    (hn : n ∉ g.coreNodes) :
    (run_one_step_simple_explicit g p dt f).elev n =
      f.elev n + f.dzdt n * dt ∧
    (run_one_step_simple_explicit g p dt f).dzdt n = f.dzdt n := by
  constructor
  · show (calc_sediment_rate_of_change g p f).elev n +
      (calc_sediment_rate_of_change g p f).dzdt n * dt = _
    rw [(csroc_frame g p f).1, csroc_dzdt_noncore g p f n hn]
  · exact csroc_dzdt_noncore g p f n hn

/-- C5: over any sequence of steps, in explicit or matrix mode, the
elevation of every FIXED_VALUE or CLOSED node is unchanged and its rate
of change stays at its post-construction value 0 — only core nodes are
mutated.  `hcore` says the grid's core-node list is consistent with the
status array; `hdz` is the post-construction state of the
`sediment__rate_of_change` output field at the boundary node. -/
theorem grt_c5_boundary_invariance (g : Grid) (p : Params)
    (mat_id : ℕ → ℕ) (steps : List Step) (f0 : Fields) (ms0 : MatState)
    (hcore : ∀ i ∈ g.coreNodes, g.statusAtNode i = BC_NODE_IS_CORE) (n : ℕ)
    (hn : g.statusAtNode n = BC_NODE_IS_FIXED_VALUE ∨
      g.statusAtNode n = BC_NODE_IS_CLOSED)
    (hdz : f0.dzdt n = 0) :
    (run_steps g p mat_id steps (f0, ms0)).1.elev n = f0.elev n ∧
    (run_steps g p mat_id steps (f0, ms0)).1.dzdt n = 0 := by
  have hnc : n ∉ g.coreNodes := by
    intro hmem
    have hst := hcore n hmem
    rcases hn with h | h <;> rw [hst] at h <;>
      simp [BC_NODE_IS_CORE, BC_NODE_IS_FIXED_VALUE, BC_NODE_IS_CLOSED] at h
  clear hn
  revert hdz
  induction steps generalizing f0 ms0 with
  | nil => intro hdz; exact ⟨rfl, hdz⟩
  | cons s steps ih =>
      intro hdz
      have hstep : run_steps g p mat_id (s :: steps) (f0, ms0) =
          run_steps g p mat_id steps (run_step g p mat_id (f0, ms0) s) := rfl
      rw [hstep]
      cases s with
      | explicit dt =>
          have h1 := explicit_noncore g p dt f0 n hnc
          have ih' := ih (run_one_step_simple_explicit g p dt f0) ms0
            (by rw [h1.2, hdz])
          have hred : run_step g p mat_id (f0, ms0) (Step.explicit dt) =
              (run_one_step_simple_explicit g p dt f0, ms0) := rfl
          rw [hred]
          refine ⟨?_, ih'.2⟩
          rw [ih'.1, h1.1, hdz]
          ring
      | matrix dt x =>
          have ih' := ih (apply_solution g mat_id x f0)
            (fill_matrix_and_rhs g p mat_id dt f0 ms0) hdz
          have hred : run_step g p mat_id (f0, ms0) (Step.matrix dt x) =
              (apply_solution g mat_id x f0,
                fill_matrix_and_rhs g p mat_id dt f0 ms0) := rfl
          rw [hred]
          refine ⟨?_, ih'.2⟩
          rw [ih'.1]
          show (if n ∈ g.coreNodes then x (mat_id n) else f0.elev n) = f0.elev n
          rw [if_neg hnc]

/-- C5 witness: one explicit step on a concrete grid leaves the
fixed-value boundary node's elevation unchanged. -/
theorem grt_c5_witness :
    ((∀ i ∈ g5w.coreNodes, g5w.statusAtNode i = BC_NODE_IS_CORE) ∧
      (g5w.statusAtNode 0 = BC_NODE_IS_FIXED_VALUE ∨
        g5w.statusAtNode 0 = BC_NODE_IS_CLOSED) ∧
      f5w.dzdt 0 = 0) ∧
    (run_steps g5w p5w mid5w [Step.explicit 1] (f5w, ms5w)).1.elev 0 =
      f5w.elev 0 := by
  have hcore : ∀ i ∈ g5w.coreNodes, g5w.statusAtNode i = BC_NODE_IS_CORE := by
    intro i hi
    simp [g5w] at hi
    subst hi
    simp [g5w, BC_NODE_IS_CORE]
  have hn : g5w.statusAtNode 0 = BC_NODE_IS_FIXED_VALUE ∨
      g5w.statusAtNode 0 = BC_NODE_IS_CLOSED := by
    left
    simp [g5w, BC_NODE_IS_FIXED_VALUE]
  exact ⟨⟨hcore, hn, rfl⟩,
    (grt_c5_boundary_invariance g5w p5w mid5w [Step.explicit 1] f5w ms5w
      hcore 0 hn rfl).1⟩

/-! ### Zero-slope behaviour -/

/-- A scatter of all-zero outfluxes over an all-zero influx stays
zero. -/
lemma foldl_update_zero (rcv : ℕ → ℕ) (out : ℕ → ℝ)
    (hout : ∀ i, out i = 0) (l : List ℕ) (base : ℕ → ℝ)
    (hbase : ∀ n, base n = 0) (n : ℕ) :
    (l.foldl (fun infl i => Function.update infl (rcv i) (out i)) base) n = 0 := by
  induction l generalizing base with
  | nil => exact hbase n
  | cons i l ih =>
      simp only [List.foldl_cons]
      refine ih _ fun m => ?_
      by_cases hm : m = rcv i <;> simp [Function.update, hm, hout, hbase]

/-- The outflux left by `calc_sediment_rate_of_change` is the one
`calc_transport_capacity` computed. -/
lemma csroc_outflux_eq (g : Grid) (p : Params) (f : Fields) :
    (calc_sediment_rate_of_change g p f).sediment_outflux =
      (calc_transport_capacity p f).sediment_outflux := by
  unfold calc_sediment_rate_of_change
  by_cases hc : 0 < p.abrasion_coef <;> simp [hc, calc_abrasion_rate]

/-- The influx left by `calc_sediment_rate_of_change` is the scatter of
the freshly-computed outflux. -/
lemma csroc_influx_eq (g : Grid) (p : Params) (f : Fields) :
    (calc_sediment_rate_of_change g p f).sediment_influx =
      scatter_influx g (calc_transport_capacity p f) := by
  unfold calc_sediment_rate_of_change
  by_cases hc : 0 < p.abrasion_coef <;> simp [hc] <;> rfl

/-- The abrasion field left by `calc_sediment_rate_of_change`. -/
lemma csroc_abrasion_eq (g : Grid) (p : Params) (f : Fields) (n : ℕ) :
    (calc_sediment_rate_of_change g p f).abrasion n =
      if 0 < p.abrasion_coef then
        (calc_abrasion_rate g p (calc_transport_capacity p f)).abrasion n
      else f.abrasion n := by
  unfold calc_sediment_rate_of_change
  by_cases hc : 0 < p.abrasion_coef <;>
    simp [hc, calc_transport_capacity]

/-- The `dzdt` field written by `calc_sediment_rate_of_change`, in terms
of the updated fields. -/
lemma csroc_dzdt_eq (g : Grid) (p : Params) (f : Fields) (n : ℕ) :
    (calc_sediment_rate_of_change g p f).dzdt n =
      if n ∈ g.coreNodes then
        p.porosity_factor *
          (((calc_sediment_rate_of_change g p f).sediment_influx n -
              (calc_sediment_rate_of_change g p f).sediment_outflux n) /
            g.areaOfCell (g.cellAtNode n) -
          (calc_sediment_rate_of_change g p f).abrasion n)
      else f.dzdt n := by
  by_cases hn : n ∈ g.coreNodes <;>
    by_cases hc : 0 < p.abrasion_coef <;>
    simp [calc_sediment_rate_of_change, hn, hc, calc_abrasion_rate,
      calc_transport_capacity]

/-- One explicit step from an all-zero-slope, clean-output state keeps
every output field at zero and elevation unchanged. -/
lemma explicit_step_zero (g : Grid) (p : Params) (dt : ℝ) (f : Fields)
    (hslope : ∀ n, f.slope n = 0) (hin : ∀ n, f.sediment_influx n = 0)
    (habr : ∀ n, f.abrasion n = 0) (hdz : ∀ n, f.dzdt n = 0) :
    (∀ n, (run_one_step_simple_explicit g p dt f).slope n = 0) ∧
    (∀ n, (run_one_step_simple_explicit g p dt f).sediment_influx n = 0) ∧
    (∀ n, (run_one_step_simple_explicit g p dt f).sediment_outflux n = 0) ∧
    (∀ n, (run_one_step_simple_explicit g p dt f).abrasion n = 0) ∧
    (∀ n, (run_one_step_simple_explicit g p dt f).dzdt n = 0) ∧
    (∀ n, (run_one_step_simple_explicit g p dt f).elev n = f.elev n) := by
  have hout1 : ∀ n, (calc_transport_capacity p f).sediment_outflux n = 0 := by
    intro n
    simp only [calc_transport_capacity]
    rw [hslope n, Real.zero_rpow (by norm_num [SEVEN_SIXTHS] : SEVEN_SIXTHS ≠ 0)]
    ring
  have hout : ∀ n, (calc_sediment_rate_of_change g p f).sediment_outflux n = 0 := by
    intro n
    rw [csroc_outflux_eq]
    exact hout1 n
  have hinflux : ∀ n,
      (calc_sediment_rate_of_change g p f).sediment_influx n = 0 := by
    intro n
    rw [csroc_influx_eq]
    exact foldl_update_zero _ _ hout1 _ _ hin n
  have habr' : ∀ n, (calc_sediment_rate_of_change g p f).abrasion n = 0 := by
    intro n
    rw [csroc_abrasion_eq]
    split_ifs with hc
    · simp only [calc_abrasion_rate]
      split_ifs with hm
      · rw [hout1 n,
          show (calc_transport_capacity p f).sediment_influx n =
            f.sediment_influx n from rfl,
          hin n]
        ring
      · exact habr n
    · exact habr n
  have hdz' : ∀ n, (calc_sediment_rate_of_change g p f).dzdt n = 0 := by
    intro n
    rw [csroc_dzdt_eq]
    split_ifs with hm
    · rw [hout n, hinflux n, habr' n]
      simp
    · exact hdz n
  refine ⟨fun n => ?_, fun n => hinflux n, fun n => hout n, fun n => habr' n,
    fun n => hdz' n, fun n => ?_⟩
  · show (calc_sediment_rate_of_change g p f).slope n = 0
    rw [(csroc_frame g p f).2.1]
    exact hslope n
  · show (calc_sediment_rate_of_change g p f).elev n +
      (calc_sediment_rate_of_change g p f).dzdt n * dt = f.elev n
    rw [(csroc_frame g p f).1, hdz' n]
    ring

/-- Sum of an indicator over a duplicate-free list whose images under
`mat_id` are distinct, with exactly one member hitting `j`. -/
lemma sum_indicator_unique (mat_id : ℕ → ℕ) (l : List ℕ) (hnd : l.Nodup)
    (hinj : ∀ a ∈ l, ∀ b ∈ l, mat_id a = mat_id b → a = b) (i0 : ℕ)
    (hi0 : i0 ∈ l) (j : ℕ) (hj : mat_id i0 = j) :
    (l.map fun i => if j = mat_id i then (1 : ℝ) else 0).sum = 1 := by
  induction l with
  | nil => cases hi0
  | cons hd l ih =>
      rcases List.mem_cons.mp hi0 with heq | hmem
      · subst heq
        simp only [List.map_cons, List.sum_cons, if_pos hj.symm]
        rw [List.sum_eq_zero, add_zero]
        intro y hy
        simp only [List.mem_map] at hy
        obtain ⟨i, hi, rfl⟩ := hy
        rw [if_neg]
        intro hji
        have hii0 : i = i0 :=
          hinj i (List.mem_cons_of_mem _ hi) i0 (List.mem_cons_self _ _)
            (by rw [← hji, hj])
        subst hii0
        exact (List.nodup_cons.mp hnd).1 hi
      · simp only [List.map_cons, List.sum_cons]
        rw [if_neg, ih (List.nodup_cons.mp hnd).2
            (fun a ha b hb =>
              hinj a (List.mem_cons_of_mem _ ha) b (List.mem_cons_of_mem _ hb))
            hmem, zero_add]
        intro hjh
        have hhd : hd = i0 :=
          hinj hd (List.mem_cons_self _ _) i0 (List.mem_cons_of_mem _ hmem)
            (by rw [← hjh, hj])
        subst hhd
        exact (List.nodup_cons.mp hnd).1 hmem

/-- With zero conductance, a node's matrix contribution degenerates to a
diagonal indicator. -/
lemma contrib_fc_zero (g : Grid) (rcvr mat_id : ℕ → ℕ) (a b : ℝ)
    (fc : ℕ → ℝ) (i p q : ℕ) (hfc : fc i = 0) :
    contrib g rcvr mat_id a b fc i p q =
      if p = mat_id i ∧ q = mat_id i then 1 else 0 := by
  unfold contrib
  rw [hfc]
  split_ifs <;> ring

/-- With zero conductance, the assembled right-hand side row value is
just the node's elevation. -/
lemma rhs_val_fc_zero (g : Grid) (f : Fields) (a : ℝ) (fc : ℕ → ℝ) (i : ℕ)
    (hfc : fc i = 0) :
    rhs_val g f a fc i = f.elev i := by
  unfold rhs_val
  rw [hfc]
  split_ifs <;> ring

/-- At zero conductance the assembled matrix is the identity on the
core block (given a clean or previously-assembled matrix and a bijective
core-node index map). -/
lemma fill_mat_identity (g : Grid) (p : Params) (mat_id : ℕ → ℕ) (dt : ℝ)
    (f : Fields) (ms : MatState) (hnd : g.coreNodes.Nodup)
    (hinj : ∀ a ∈ g.coreNodes, ∀ b ∈ g.coreNodes, mat_id a = mat_id b → a = b)
    (hsurj : ∀ j < g.coreNodes.length, ∃ i ∈ g.coreNodes, mat_id i = j)
    (hfc : ∀ n, conduct f n = 0)
    (hms : ∀ p' q', p' < g.coreNodes.length → q' < g.coreNodes.length →
      ms.mat p' q' = 0 ∨ (p' = q' ∧ ms.mat p' q' = 1))
    (p' q' : ℕ) (hp : p' < g.coreNodes.length)
    (hq : q' < g.coreNodes.length) :
    (fill_matrix_and_rhs g p mat_id dt f ms).mat p' q' =
      if p' = q' then 1 else 0 := by
  have hcontrib : ∀ i ∈ g.coreNodes,
      contrib g f.receiver_node mat_id (aCoef g p dt) (bCoef g p dt)
        (conduct f) i p' q' =
      if p' = mat_id i ∧ q' = mat_id i then 1 else 0 :=
    fun i _ => contrib_fc_zero _ _ _ _ _ _ _ _ _ (hfc i)
  rw [fill_matrix_mat_char]
  by_cases hpq : p' = q'
  · subst hpq
    obtain ⟨i0, hi0, hmi0⟩ := hsurj p' hp
    rw [if_pos ⟨i0, hi0, Or.inl ⟨hmi0.symm, hmi0.symm⟩⟩, if_pos rfl,
      List.map_congr_left hcontrib,
      show (fun i => if p' = mat_id i ∧ p' = mat_id i then (1 : ℝ) else 0) =
        fun i => if p' = mat_id i then (1 : ℝ) else 0 by
          funext i
          by_cases h : p' = mat_id i <;> simp [h]]
    exact sum_indicator_unique mat_id g.coreNodes hnd hinj i0 hi0 p' hmi0
  · rw [if_neg hpq]
    by_cases ht : ∃ i ∈ g.coreNodes, touches g f.receiver_node mat_id i p' q'
    · rw [if_pos ht, List.map_congr_left hcontrib, List.sum_eq_zero]
      intro y hy
      simp only [List.mem_map] at hy
      obtain ⟨i, hi, rfl⟩ := hy
      rw [if_neg]
      rintro ⟨h1, h2⟩
      exact hpq (h1.trans h2.symm)
    · rw [if_neg ht]
      rcases hms p' q' hp hq with h0 | ⟨heq, _⟩
      · exact h0
      · exact absurd heq hpq

/-- One matrix step from an all-zero-slope state leaves every core
elevation unchanged (the assembled system is the identity with the
current elevations on the right-hand side) and leaves the stored matrix
in identity-on-the-core-block form. -/
lemma matrix_step_zero (g : Grid) (p : Params) (mat_id : ℕ → ℕ) (dt : ℝ)
    (x : ℕ → ℝ) (f : Fields) (ms : MatState) (hnd : g.coreNodes.Nodup)
    (hinj : ∀ a ∈ g.coreNodes, ∀ b ∈ g.coreNodes, mat_id a = mat_id b → a = b)
    (hlt : ∀ i ∈ g.coreNodes, mat_id i < g.coreNodes.length)
    (hsurj : ∀ j < g.coreNodes.length, ∃ i ∈ g.coreNodes, mat_id i = j)
    (hslope : ∀ n, f.slope n = 0)
    (hms : ∀ p' q', p' < g.coreNodes.length → q' < g.coreNodes.length →
      ms.mat p' q' = 0 ∨ (p' = q' ∧ ms.mat p' q' = 1))
    (hx : SolvesSystem g.coreNodes.length
      (fill_matrix_and_rhs g p mat_id dt f ms) x) :
    (∀ n, (run_one_step_matrix_inversion g p mat_id dt x f ms).1.elev n =
      f.elev n) ∧
    (∀ p' q', p' < g.coreNodes.length → q' < g.coreNodes.length →
      (run_one_step_matrix_inversion g p mat_id dt x f ms).2.mat p' q' = 0 ∨
        (p' = q' ∧
          (run_one_step_matrix_inversion g p mat_id dt x f ms).2.mat p' q' =
            1)) := by
  have hfc : ∀ n, conduct f n = 0 := by
    intro n
    unfold conduct
    rw [hslope n, Real.zero_rpow (by norm_num [_ONE_SIXTH] : _ONE_SIXTH ≠ 0)]
    ring
  have hid := fill_mat_identity g p mat_id dt f ms hnd hinj hsurj hfc hms
  have hxj : ∀ j < g.coreNodes.length,
      x j = (fill_matrix_and_rhs g p mat_id dt f ms).rhs j := by
    intro j hj
    rw [← hx j hj,
      Finset.sum_congr rfl fun k hk => by
        rw [hid j k hj (Finset.mem_range.mp hk)],
      Finset.sum_eq_single j (fun b _ hbj => by rw [if_neg (Ne.symm hbj)]; ring)
        (fun hjs => absurd (Finset.mem_range.mpr hj) hjs)]
    rw [if_pos rfl]
    ring
  constructor
  · intro n
    show (if n ∈ g.coreNodes then x (mat_id n) else f.elev n) = f.elev n
    split_ifs with hn
    · rw [hxj (mat_id n) (hlt n hn),
        fill_matrix_rhs_touched g p mat_id dt f ms n hn
          (fun i' hi' heq => hinj i' hi' n hn heq),
        rhs_val_fc_zero g f _ _ n (hfc n)]
    · rfl
  · intro p' q' hp hq
    have h2 : (run_one_step_matrix_inversion g p mat_id dt x f ms).2.mat p' q' =
        if p' = q' then 1 else 0 := hid p' q' hp hq
    rw [h2]
    by_cases hpq : p' = q'
    · exact Or.inr ⟨hpq, if_pos hpq⟩
    · exact Or.inl (if_neg hpq)

/-- Along any valid run from a zero-slope, clean-output state, all
output fields stay zero, elevations stay put, and the stored matrix
stays in identity-or-zero form. -/
lemma valid_run_zero_inv (g : Grid) (p : Params) (mat_id : ℕ → ℕ)
    (e0 : ℕ → ℝ) (hnd : g.coreNodes.Nodup)
    (hinj : ∀ a ∈ g.coreNodes, ∀ b ∈ g.coreNodes, mat_id a = mat_id b → a = b)
    (hlt : ∀ i ∈ g.coreNodes, mat_id i < g.coreNodes.length)
    (hsurj : ∀ j < g.coreNodes.length, ∃ i ∈ g.coreNodes, mat_id i = j)
    (st : Fields × MatState) (steps : List Step) (st' : Fields × MatState)
    (hrun : ValidRun g p mat_id st steps st') :
    ((∀ n, st.1.slope n = 0) ∧ (∀ n, st.1.sediment_influx n = 0) ∧
      (∀ n, st.1.sediment_outflux n = 0) ∧ (∀ n, st.1.abrasion n = 0) ∧
      (∀ n, st.1.dzdt n = 0) ∧ (∀ n, st.1.elev n = e0 n) ∧
      (∀ p' q', p' < g.coreNodes.length → q' < g.coreNodes.length →
        st.2.mat p' q' = 0 ∨ (p' = q' ∧ st.2.mat p' q' = 1))) →
    ((∀ n, st'.1.slope n = 0) ∧ (∀ n, st'.1.sediment_influx n = 0) ∧
      (∀ n, st'.1.sediment_outflux n = 0) ∧ (∀ n, st'.1.abrasion n = 0) ∧
      (∀ n, st'.1.dzdt n = 0) ∧ (∀ n, st'.1.elev n = e0 n) ∧
      (∀ p' q', p' < g.coreNodes.length → q' < g.coreNodes.length →
        st'.2.mat p' q' = 0 ∨ (p' = q' ∧ st'.2.mat p' q' = 1))) := by
  induction hrun with
  | nil st => exact id
  | explicit_step st stf dt steps hrun ih =>
      intro hinv
      apply ih
      obtain ⟨hs, hi, ho, ha, hd, he, hm⟩ := hinv
      have hz := explicit_step_zero g p dt st.1 hs hi ha hd
      exact ⟨hz.1, hz.2.1, hz.2.2.1, hz.2.2.2.1, hz.2.2.2.2.1,
        fun n => (hz.2.2.2.2.2 n).trans (he n), hm⟩
  | matrix_step st stf dt x steps hsolve hrun ih =>
      intro hinv
      apply ih
      obtain ⟨hs, hi, ho, ha, hd, he, hm⟩ := hinv
      have hz := matrix_step_zero g p mat_id dt x st.1 st.2 hnd hinj hlt
        hsurj hs hm hsolve
      exact ⟨hs, hi, ho, ha, hd, fun n => (hz.1 n).trans (he n), hz.2⟩

/-- C8: starting from slope zero at every node and clean
post-construction output fields (and an empty matrix buffer), any valid
sequence of `run_one_step` calls — explicit or matrix mode — leaves
outflux, influx, and rate of change identically zero and the elevation
array equal to its initial value.  The `mat_id` hypotheses say the
core-node index map is the usual bijection onto matrix rows. -/
theorem grt_c8_zero_slope (g : Grid) (p : Params) (mat_id : ℕ → ℕ)
    (steps : List Step) (f0 : Fields) (ms0 : MatState)
    (st' : Fields × MatState) (hnd : g.coreNodes.Nodup)
    (hinj : ∀ a ∈ g.coreNodes, ∀ b ∈ g.coreNodes, mat_id a = mat_id b → a = b)
    (hlt : ∀ i ∈ g.coreNodes, mat_id i < g.coreNodes.length)
    (hsurj : ∀ j < g.coreNodes.length, ∃ i ∈ g.coreNodes, mat_id i = j)
    (hslope : ∀ n, f0.slope n = 0) (hin : ∀ n, f0.sediment_influx n = 0)
    (hout : ∀ n, f0.sediment_outflux n = 0)
    (habr : ∀ n, f0.abrasion n = 0) (hdz : ∀ n, f0.dzdt n = 0)
    (hmat : ∀ p' q', ms0.mat p' q' = 0)
    (hrun : ValidRun g p mat_id (f0, ms0) steps st') :
    (∀ n, st'.1.sediment_outflux n = 0) ∧
    (∀ n, st'.1.sediment_influx n = 0) ∧
    (∀ n, st'.1.dzdt n = 0) ∧
    (∀ n, st'.1.elev n = f0.elev n) := by
  have hinv := valid_run_zero_inv g p mat_id f0.elev hnd hinj hlt hsurj
    (f0, ms0) steps st' hrun
    ⟨hslope, hin, hout, habr, hdz, fun n => rfl,
      fun p' q' _ _ => Or.inl (hmat p' q')⟩
  exact ⟨hinv.2.2.1, hinv.2.1, hinv.2.2.2.2.1, hinv.2.2.2.2.2.1⟩

/-- C8 witness: one explicit zero-slope step leaves the core node's
elevation unchanged. -/
theorem grt_c8_witness :
    (∀ n, f8w.slope n = 0) ∧
    (run_step g8w p8w mid8w (f8w, ms8w) (Step.explicit 1)).1.elev 1 =
      f8w.elev 1 := by
  refine ⟨fun n => rfl, ?_⟩
  have hnd : g8w.coreNodes.Nodup := by simp [g8w]
  have hinj : ∀ a ∈ g8w.coreNodes, ∀ b ∈ g8w.coreNodes,
      mid8w a = mid8w b → a = b := by
    intro a ha b hb _
    simp [g8w] at ha hb
    omega
  have hlt : ∀ i ∈ g8w.coreNodes, mid8w i < g8w.coreNodes.length := by
    intro i _
    simp [g8w, mid8w]
  have hsurj : ∀ j < g8w.coreNodes.length,
      ∃ i ∈ g8w.coreNodes, mid8w i = j := by
    intro j hj
    refine ⟨1, by simp [g8w], ?_⟩
    simp [g8w] at hj
    simp [mid8w]
    omega
  have h := grt_c8_zero_slope g8w p8w mid8w [Step.explicit 1] f8w ms8w
    (run_step g8w p8w mid8w (f8w, ms8w) (Step.explicit 1)) hnd hinj hlt hsurj
    (fun n => rfl) (fun n => rfl) (fun n => rfl) (fun n => rfl) (fun n => rfl)
    (fun p' q' => rfl)
    (ValidRun.explicit_step _ _ _ _ (ValidRun.nil _))
  exact h.2.2.2 1

end

end GRT
